import Mathlib

/-!
A shallow embedding of the core pipeline of the Invoice Analyzer Pro
repository (`src/app.py` and `src/invoice_analyzer_ready.py`).

Modelling conventions:
* Python/numpy floats are modelled as exact rationals (`ℚ`);
  `round(x, 2)` / `Series.round(2)` use round-half-to-even, modelled
  exactly on `ℚ` by `roundHalfEven`/`round2`.
* `NaN` / `pd.NA` (the "Absent" marker) is modelled by `Option`: `none`
  is NaN, and functions that never raise are total Lean functions.
* String-to-number parsing (`float(...)` and `pd.to_numeric`) is
  modelled for plain decimal literals (optional sign, digits, at most
  one decimal point), the fragment exercised by the pipeline's inputs.
* `astype(int)` / `int(...)` truncate toward zero, modelled by `truncInt`.
-/

namespace InvoiceAnalyzer

/-- Numeric value of a list of decimal digit characters, most significant
first (value of the empty list is 0, as in Python `"".join` corner cases). -/
def digitsVal (cs : List Char) : ℕ :=
  cs.foldl (fun a c => a * 10 + (c.toNat - ('0').toNat)) 0

/-- Parse a decimal literal string, as Python `float(...)` /
`pd.to_numeric(..., errors="coerce")` do on the strings this pipeline
produces: optional surrounding whitespace, optional single leading sign,
then digits with at most one decimal point and at least one digit.
Returns `none` (NaN) when the string is empty or unparsable. -/
def parseDecimal? (s : String) : Option ℚ :=
  let cs := (s.toList.dropWhile Char.isWhitespace).reverse.dropWhile Char.isWhitespace |>.reverse
  let (sign, rest) : ℚ × List Char :=
    match cs with
    | '-' :: t => (-1, t)
    | '+' :: t => (1, t)
    | t => (1, t)
  let intPart := rest.takeWhile Char.isDigit
  let rest2 := rest.dropWhile Char.isDigit
  match rest2 with
  | [] => if intPart.isEmpty then none else some (sign * digitsVal intPart)
  | '.' :: frac =>
    if frac.all Char.isDigit && !(intPart.isEmpty && frac.isEmpty) then
      some (sign * ((digitsVal intPart : ℚ) + (digitsVal frac : ℚ) / (10 : ℚ) ^ frac.length))
    else none
  | _ => none

/-- Round a rational to the nearest integer, ties to even — the rounding
used by Python's `round` and numpy's `Series.round`. (Stated with the
executable `Rat.floor` so concrete instances evaluate by `decide`.) -/
def roundHalfEven (q : ℚ) : ℤ :=
  let n := q.floor
  let r := q - n
  if r < 1/2 then n
  else if 1/2 < r then n + 1
  else if n % 2 == 0 then n else n + 1

/-- `round(x, 2)`: round to two decimal places, ties to even. -/
def round2 (q : ℚ) : ℚ := (roundHalfEven (q * 100) : ℚ) / 100

/-- Truncation toward zero: the conversion performed by Python `int(...)`
and numpy `astype(int)` on floats. -/
def truncInt (q : ℚ) : ℤ := if 0 ≤ q then q.floor else q.ceil

/-- Python `str.strip()`: remove leading and trailing whitespace. -/
def pyStrip (s : String) : String :=
  (((s.toList.dropWhile Char.isWhitespace).reverse.dropWhile Char.isWhitespace).reverse).asString

/-- Python `str.lower()` (ASCII fragment). -/
def lowerStr (s : String) : String := (s.toList.map Char.toLower).asString

/-- Boolean list-prefix test (used to implement substring search). -/
def listPre : List Char → List Char → Bool
  | [], _ => true
  | _ :: _, [] => false
  | a :: as, b :: bs => a == b && listPre as bs

/-- Python's `needle in hay` substring test. -/
def hasSub (needle hay : List Char) : Bool :=
  match hay with
  | [] => needle.isEmpty
  | _ :: t => listPre needle hay || hasSub needle t

/-- `needle in hay` on strings. -/
def strContains (hay needle : String) : Bool := hasSub needle.toList hay.toList

/-- `Series.fillna(0)` / the `x if not isna else 0` idiom: NaN becomes 0. -/
def fillna0 (o : Option ℚ) : ℚ := o.getD 0

/-! ### `src/app.py` — Numeric Cleaner and column/unit-price heuristics -/

/-- `re.sub(r"[^\d.\-]", "", s)`: keep only digits, dots and minus signs. -/
def stripNonNumeric (s : String) : List Char :=
  s.toList.filter (fun ch => ch.isDigit || ch == '.' || ch == '-')

/-- Python `s.split(".")` on a character list. -/
def splitOnDot : List Char → List (List Char)
  | [] => [[]]
  | c :: cs =>
    let r := splitOnDot cs
    if c == '.' then [] :: r
    else (c :: r.headD []) :: r.tail

/-- `app.py` `clean_number_raw`: `none` models a `pd.isna` input. Keeps
digits/dot/minus; when more than one dot remains, keeps the first dot as
separator and joins the remaining parts (`parts[0] + "." + "".join(parts[1:])`). -/
def clean_number_raw (x : Option String) : String :=
  match x with
  | none => ""
  | some s =>
    let cs := stripNonNumeric s
    if 1 < cs.count '.' then
      let parts := splitOnDot cs
      ((parts.headD []) ++ '.' :: (parts.tail).flatten).asString
    else cs.asString

/-- `app.py` `to_float_safe`: clean, then `float(...)` guarded by
try/except; empty or unparsable cleaned strings give NaN (`none`). -/
def to_float_safe (x : Option String) : Option ℚ :=
  let s := clean_number_raw x
  if s == "" then none else parseDecimal? s

/-- Proportion of cells parsing as numeric
(`column_numeric_stats`: `num_non_na / total if total>0 else 0`). -/
def propNumeric (cells : List String) : ℚ :=
  let numNonNa := cells.countP (fun s => (to_float_safe (some s)).isSome)
  if 0 < cells.length then (numNonNa : ℚ) / cells.length else 0

/-- `series.map(len).mean()`: average string length of a column.
(For an empty column pandas yields NaN and the column is never selected;
here `/0 = 0`, so theorems about `choose_item_column` assume nonempty columns.) -/
def avgLen (cells : List String) : ℚ :=
  (cells.map (fun s => (s.length : ℚ))).sum / cells.length

/-- Item-column score: `(1 - prop_num) * 0.6 + (avg_len / 100) * 0.4`. -/
def itemScore (cells : List String) : ℚ :=
  (1 - propNumeric cells) * (6/10) + (avgLen cells / 100) * (4/10)

/-- One step of `choose_item_column`'s loop: keep the incumbent unless
this column's score strictly exceeds it (`if score > best_score`). -/
def itemColStep (best : Option String × ℚ) (col : String × List String) :
    Option String × ℚ :=
  let score := itemScore col.2
  if best.2 < score then (some col.1, score) else best

/-- `app.py` `choose_item_column`: fold over columns (name, cells),
starting from best score −999 and no column. -/
def choose_item_column (df : List (String × List String)) : Option String × ℚ :=
  df.foldl itemColStep (none, -999)

/-- A row of `app.py`'s working table after column selection:
`Item Name` (already a string), and the raw price / quantity cells
(`none` models `pd.NA`, e.g. when no quantity column exists). -/
structure AppRow where
  itemName : String
  priceRaw : Option String
  qtyRaw : Option String
deriving DecidableEq, Repr

/-- `Price_Num = Price_Raw.map(to_float_safe)`. -/
def priceNum (r : AppRow) : Option ℚ := to_float_safe r.priceRaw

/-- `Qty_Num = int(to_float_safe(x)) if not isna else nan`
(`int` truncates toward zero). -/
def qtyNum (r : AppRow) : Option ℤ := (to_float_safe r.qtyRaw).map truncInt

/-- Insertion sort, ascending (model of numpy's sort for `median`). -/
def insertSorted (x : ℚ) : List ℚ → List ℚ
  | [] => [x]
  | y :: ys => if x ≤ y then x :: y :: ys else y :: insertSorted x ys

def sortQ (l : List ℚ) : List ℚ := l.foldr insertSorted []

/-- `np.median`: middle element of the sorted list, or the mean of the
two middle elements for even length. -/
def medianQ (l : List ℚ) : ℚ :=
  let s := sortQ l
  let n := s.length
  if n % 2 == 1 then s.getD (n / 2) 0
  else (s.getD (n / 2 - 1) 0 + s.getD (n / 2) 0) / 2

def meanQ (l : List ℚ) : ℚ := l.sum / l.length

/-- Population variance, i.e. `np.std(l) ^ 2` (kept squared so all
arithmetic stays rational). -/
def varianceQ (l : List ℚ) : ℚ :=
  ((l.map (fun x => (x - meanQ l) ^ 2)).sum) / l.length

/-- `std_ratio / (median_ratio + 1e-9) < 0.6`, expressed without square
roots: for a positive denominator the comparison is squared (both sides
are then nonnegative); for a negative denominator the quotient is ≤ 0
and the test holds; for a zero denominator the float quotient is
`inf`/`nan` and the test fails. -/
def relStdBelow (l : List ℚ) : Bool :=
  let m := medianQ l + 1 / 1000000000
  if 0 < m then decide (varianceQ l < ((3/5) * m) ^ 2)
  else decide (m < 0)

/-- The per-row `Price_Num / Qty_Num` ratios collected when both are
present and the quantity is nonzero. -/
def ratios (rows : List AppRow) : List ℚ :=
  rows.filterMap (fun r =>
    match priceNum r, qtyNum r with
    | some p, some q => if q ≠ 0 then some (p / (q : ℚ)) else none
    | _, _ => none)

/-- `app.py` lines 188–199: `use_division` is set only when some quantity
parsed, at least one ratio exists, and the ratios' relative standard
deviation is below 0.6. -/
def use_division (rows : List AppRow) : Bool :=
  if 0 < rows.countP (fun r => (qtyNum r).isSome) then
    let rs := ratios rows
    if 1 ≤ rs.length then relStdBelow rs else false
  else false

/-- `app.py` `compute_unit`: NaN price stays NaN; with division enabled
and a present, nonzero quantity return `p / q`, otherwise the price. -/
def compute_unit (useDiv : Bool) (p : Option ℚ) (q : Option ℤ) : Option ℚ :=
  match p with
  | none => none
  | some pv =>
    match q with
    | some qv => if useDiv && qv != 0 then some (pv / (qv : ℚ)) else some pv
    | none => some pv

/-- `app.py` line 216: `work = work[work["Item Name"].str.strip() != ""]`. -/
def appRemoveEmptyItems (work : List AppRow) : List AppRow :=
  work.filter (fun r => pyStrip r.itemName != "")

/-! ### `src/invoice_analyzer_ready.py` — normalizer, extraction chain,
economics calculator -/

/-- A raw extracted table, column-major: ordered `(name, cells)` pairs,
cells as strings (all columns have equal length in a well-formed frame). -/
def DF := List (String × List String)

/-- `df.size`: total number of cells. -/
def dfSize (df : DF) : ℕ := df.foldl (fun a c => a + c.2.length) 0

/-- `df.shape[0]`: number of rows (length of the first column). -/
def dfNRows (df : DF) : ℕ := ((df.headD ("", [])).2).length

/-- `df2[c]`: the cells of the (first) column named `c`. -/
def dfCol (df : DF) (c : String) : List String :=
  ((df.find? (fun col => col.1 == c)).getD (c, [])).2

/-- The canonical normalized row:
`{Item Name, Original Price, Paid Qty, Free Qty}`. -/
structure CanonicalRow where
  itemName : String
  originalPrice : ℚ
  paidQty : ℚ
  freeQty : ℚ
deriving DecidableEq, Repr

/-- The header-keyword role assignment of `detect_and_prepare_df`
(lines 128–140): first matching branch of the `if`/`elif` chain wins.
(The `gross`/`net amount` branch is a `pass`, hence `none`.) -/
def kwRole (c : String) : Option String :=
  let lc := lowerStr c
  if strContains lc "item" || strContains lc "name" || strContains lc "make" then
    some "Item Name"
  else if strContains lc "price" || strContains lc "unit" || strContains lc "rate" then
    some "Original Price"
  else if strContains lc "free" then some "Free Qty"
  else if strContains lc "qty" && !(strContains lc "free") then some "Paid Qty"
  else none

/-- Python dict assignment `m[k] = v`: overwrite in place if the key
exists, else append (insertion order preserved). -/
def dictInsert (m : List (String × String)) (k v : String) : List (String × String) :=
  if m.any (fun p => p.1 == k) then m.map (fun p => if p.1 == k then (k, v) else p)
  else m ++ [(k, v)]

/-- `str.replace(',', '')`: drop every comma. -/
def removeCommas (s : String) : String :=
  (s.toList.filter (fun c => c != ',')).asString

/-- `pd.to_numeric(col.astype(str).str.replace(',', ''), errors='coerce')`
restricted to the non-NaN entries (pandas `max`/`min`/counts skip NaN). -/
def numericCells (cells : List String) : List ℚ :=
  cells.filterMap (fun s => parseDecimal? (removeCommas s))

def maxQ (l : List ℚ) : ℚ := l.foldl max (l.headD 0)

def minQ (l : List ℚ) : ℚ := l.foldl min (l.headD 0)

/-- A cell counts as textual when some character is alphabetic
(`any(ch.isalpha() for ch in s)`). -/
def hasAlphaCell (s : String) : Bool := s.toList.any Char.isAlpha

/-- Guessed price column test (lines 156–159): at least 3 numeric cells,
maximum below 10,000,000 and minimum ≥ 0. -/
def priceGuessOK (cells : List String) : Bool :=
  let vals := numericCells cells
  decide (3 ≤ vals.length) && decide (maxQ vals < 10000000) && decide (0 ≤ minQ vals)

/-- Guessed paid-qty column test (lines 166–170): at least 3 numeric
cells, at least one of them integral, maximum below 100,000. -/
def paidGuessOK (cells : List String) : Bool :=
  let vals := numericCells cells
  decide (3 ≤ vals.length) && decide (1 ≤ vals.countP (fun q => q.den == 1)) &&
    decide (maxQ vals < 100000)

/-- `detect_and_prepare_df`'s `col_map` construction: the keyword pass
over the columns, then the three data-driven guesses. Note the guard
conditions test membership of the *role name among the dict keys*
(`if "Item Name" not in col_map`), exactly as the Python `in` operator
does on a dict — not whether some column was already assigned the role. -/
def buildColMap (df : DF) : List (String × String) :=
  let m0 := df.foldl
    (fun m col =>
      match kwRole col.1 with
      | some r => dictInsert m col.1 r
      | none => m) []
  let m1 :=
    if m0.any (fun p => p.1 == "Item Name") then m0
    else
      match df.find? (fun col => decide (5 ≤ (col.2.take 10).countP hasAlphaCell)) with
      | some col => dictInsert m0 col.1 "Item Name"
      | none => m0
  let m2 :=
    if m1.any (fun p => p.1 == "Original Price") then m1
    else
      match df.find? (fun col => priceGuessOK col.2) with
      | some col => dictInsert m1 col.1 "Original Price"
      | none => m1
  let m3 :=
    if m2.any (fun p => p.1 == "Paid Qty") then m2
    else
      match df.find? (fun col => paidGuessOK col.2) with
      | some col => dictInsert m2 col.1 "Paid Qty"
      | none => m2
  m3

/-- The column feeding a role in the normalized frame: the *last*
`col_map` entry with that role wins, since later
`normalized[new_col] = df2[orig_col]` assignments overwrite earlier ones. -/
def roleCol (m : List (String × String)) (role : String) : Option String :=
  (m.reverse.find? (fun p => p.2 == role)).map (fun p => p.1)

/-- `detect_and_prepare_df`: normalize a raw frame to canonical rows.
Unassigned numeric roles default to 0 (`Free Qty` via the explicit
`normalized["Free Qty"] = 0`, the others via the `else` branch of the
numeric-conversion loop); a missing item column gives `"Unknown Item"`;
the item name is stripped; numeric cells are comma-stripped, coerced,
and NaN filled with 0. Rows with an empty stripped item name are kept. -/
def detect_and_prepare_df (df : DF) : List CanonicalRow :=
  if dfSize df == 0 then []
  else
    let m := buildColMap df
    let itemCol := roleCol m "Item Name"
    let priceCol := roleCol m "Original Price"
    let paidCol := roleCol m "Paid Qty"
    let freeCol := roleCol m "Free Qty"
    let numAt (c : Option String) (i : ℕ) : ℚ :=
      match c with
      | some c => fillna0 (parseDecimal? (removeCommas ((dfCol df c).getD i "")))
      | none => 0
    match m with
    | [] => []
    | (c0, _) :: _ =>
      (List.range (dfCol df c0).length).map (fun i =>
        { itemName :=
            match itemCol with
            | some c => pyStrip ((dfCol df c).getD i "")
            | none => "Unknown Item"
          originalPrice := numAt priceCol i
          paidQty := numAt paidCol i
          freeQty := numAt freeCol i })

/-- The two extractors of the fallback chain, in attempt order. -/
inductive Extractor
  | tabula
  | plumber
deriving DecidableEq, Repr

/-- `try_tabula_pdf`: given the frames tabula returned (empty list when
tabula is unavailable or raised), keep those with at least one row
(`t.shape[0] > 0`). -/
def try_tabula_pdf (tabulaRaw : List DF) : List DF :=
  tabulaRaw.filter (fun t => decide (0 < dfNRows t))

/-- `sorted(tables, key=shape[0], reverse=True)[0]`: the first table of
maximal row count (Python's sort is stable). -/
def pickCandidate : List DF → DF
  | [] => []
  | t :: ts => ts.foldl (fun b u => if dfNRows b < dfNRows u then u else b) t

/-- The module-level extraction fallback chain (lines 217–235),
parameterized by the results of the two external extractors: tabula's
raw frames and the pdfplumber fallback's parsed rows. Returns the list
of extractors attempted, in order, alongside `df_final`. -/
def extraction_chain (tabulaRaw : List DF) (fb : List CanonicalRow) :
    List Extractor × List CanonicalRow :=
  let tables := try_tabula_pdf tabulaRaw
  if !tables.isEmpty then
    ([Extractor.tabula], detect_and_prepare_df (pickCandidate tables))
  else if !fb.isEmpty then ([Extractor.tabula, Extractor.plumber], fb)
  else ([Extractor.tabula, Extractor.plumber], [])

/-- `discount_multiplier = (100.0 - discount_percent) / 100.0`. -/
def discount_multiplier (d : ℚ) : ℚ := (100 - d) / 100

/-- A canonical row with the derived columns of lines 243–250. -/
structure EnrichedRow where
  row : CanonicalRow
  discountedUnitPrice : ℚ
  totalQty : ℤ
  effectiveRate : ℚ
deriving DecidableEq, Repr

/-- The economics calculation (lines 243–250):
`Discounted Unit Price = (price * multiplier).round(2)`,
`Total Qty = (paid + free).astype(int)` (truncation toward zero), and
`eff_rate`: `0.0` when `Total Qty == 0`, else
`round(paid * discounted / total, 2)`. -/
def enrich (r : CanonicalRow) (d : ℚ) : EnrichedRow :=
  let dup := round2 (r.originalPrice * discount_multiplier d)
  let tq := truncInt (r.paidQty + r.freeQty)
  { row := r
    discountedUnitPrice := dup
    totalQty := tq
    effectiveRate := if tq == 0 then 0 else round2 ((r.paidQty * dup) / (tq : ℚ)) }

/-! ### Helper lemmas -/

theorem ratFloor_intCast (k : ℤ) : ((k : ℚ)).floor = k := by
  rw [Rat.floor_def', Rat.num_intCast, Rat.den_intCast]
  simp

theorem ratCeil_intCast (k : ℤ) : ((k : ℚ)).ceil = k := by
  unfold Rat.ceil
  rw [Rat.den_intCast]
  simp [Rat.num_intCast]

theorem roundHalfEven_intCast (k : ℤ) : roundHalfEven (k : ℚ) = k := by
  unfold roundHalfEven
  rw [ratFloor_intCast]
  norm_num

theorem round2_eq_self (q : ℚ) (n : ℤ) (h : q * 100 = (n : ℚ)) : round2 q = q := by
  unfold round2
  rw [h, roundHalfEven_intCast]
  rw [← h]
  ring

theorem truncInt_intCast (n : ℤ) : truncInt (n : ℚ) = n := by
  unfold truncInt
  split <;> simp [ratFloor_intCast, ratCeil_intCast]

end InvoiceAnalyzer

namespace InvoiceAnalyzer

/-! ### Claims -/

/-- Claim C1, corrected. The enrichment's `eff_rate` is total (the
division is guarded), but at `total_qty == 0` the code returns `0.0`,
not `round(discounted_unit_price, 2)`: concretely, for the row
`{item "A", price 100, paid 0, free 0}` at discount 0 the effective
rate is `0` while the rounded discounted unit price is `100`. -/
theorem C1_counterexample :
    (enrich ⟨"A", 100, 0, 0⟩ 0).totalQty = 0 ∧
    (enrich ⟨"A", 100, 0, 0⟩ 0).effectiveRate = 0 ∧
    round2 ((enrich ⟨"A", 100, 0, 0⟩ 0).discountedUnitPrice) = 100 ∧
    (enrich ⟨"A", 100, 0, 0⟩ 0).effectiveRate ≠
      round2 ((enrich ⟨"A", 100, 0, 0⟩ 0).discountedUnitPrice) := by
  with_unfolding_all decide

/-- Claim C1, amended: for every canonical row and discount in `[0,100]`
the effective rate is defined without a division fault — the zero-total
case is guarded — and at `total_qty == 0` it equals `0.0` (not the
discounted unit price); otherwise it is the rounded weighted rate. -/
theorem C1_effective_rate_total (r : CanonicalRow) (d : ℚ)
    (_h0 : 0 ≤ d) (_h1 : d ≤ 100) :
    ((enrich r d).totalQty = 0 → (enrich r d).effectiveRate = 0) ∧
    ((enrich r d).totalQty ≠ 0 →
      (enrich r d).effectiveRate =
        round2 ((r.paidQty * (enrich r d).discountedUnitPrice) /
          ((enrich r d).totalQty : ℚ))) := by
  unfold enrich
  constructor <;> intro h <;> simp_all

/-- Witness for `C1_effective_rate_total` at the row
`{item "A", price 100, paid 0, free 0}`, discount 0. -/
theorem C1_effective_rate_total_witness :
    ((enrich ⟨"A", 100, 0, 0⟩ 0).totalQty = 0 →
      (enrich ⟨"A", 100, 0, 0⟩ 0).effectiveRate = 0) ∧
    ((enrich ⟨"A", 100, 0, 0⟩ 0).totalQty ≠ 0 →
      (enrich ⟨"A", 100, 0, 0⟩ 0).effectiveRate =
        round2 (((⟨"A", 100, 0, 0⟩ : CanonicalRow).paidQty *
          (enrich ⟨"A", 100, 0, 0⟩ 0).discountedUnitPrice) /
          ((enrich ⟨"A", 100, 0, 0⟩ 0).totalQty : ℚ))) :=
  C1_effective_rate_total ⟨"A", 100, 0, 0⟩ 0 (by norm_num) (by norm_num)

/-- Claim C7, corrected. `Total Qty` is not the plain numeric sum: the
code applies `.astype(int)`, truncating toward zero. For
`paid_qty = 5/2, free_qty = 0` the code yields `2`, not `5/2`. -/
theorem C7_counterexample :
    ((enrich ⟨"A", 10, 5/2, 0⟩ 0).totalQty : ℚ) = 2 ∧
    (⟨"A", 10, 5/2, 0⟩ : CanonicalRow).paidQty +
      (⟨"A", 10, 5/2, 0⟩ : CanonicalRow).freeQty = 5/2 ∧
    ((2 : ℚ) ≠ 5/2) := by
  with_unfolding_all decide

/-- Claim C7, amended: `total_qty` equals the sum `paid_qty + free_qty`
truncated toward zero to an integer (`astype(int)`); fractional
quantities are accepted as inputs, but the total agrees with the plain
numeric sum only when that sum is integral. -/
theorem C7_total_qty_truncated (r : CanonicalRow) (d : ℚ) :
    (enrich r d).totalQty = truncInt (r.paidQty + r.freeQty) ∧
    (∀ n : ℤ, r.paidQty + r.freeQty = (n : ℚ) →
      ((enrich r d).totalQty : ℚ) = r.paidQty + r.freeQty) := by
  refine ⟨rfl, fun n hn => ?_⟩
  show ((truncInt (r.paidQty + r.freeQty) : ℤ) : ℚ) = _
  rw [hn, truncInt_intCast]

/-- Witness for `C7_total_qty_truncated` at the row
`{item "A", price 10, paid 5, free 1}`, discount 0, `n = 6`. -/
theorem C7_total_qty_truncated_witness :
    (enrich ⟨"A", 10, 5, 1⟩ 0).totalQty =
      truncInt ((⟨"A", 10, 5, 1⟩ : CanonicalRow).paidQty +
        (⟨"A", 10, 5, 1⟩ : CanonicalRow).freeQty) ∧
    ((enrich ⟨"A", 10, 5, 1⟩ 0).totalQty : ℚ) =
      (⟨"A", 10, 5, 1⟩ : CanonicalRow).paidQty +
        (⟨"A", 10, 5, 1⟩ : CanonicalRow).freeQty :=
  ⟨(C7_total_qty_truncated ⟨"A", 10, 5, 1⟩ 0).1,
    (C7_total_qty_truncated ⟨"A", 10, 5, 1⟩ 0).2 6 (by norm_num)⟩

/-- Claim C2, confirmed. The extraction fallback chain attempts tabula
first; when tabula yields no usable table and the pdfplumber fallback
yields a non-empty one, `df_final` is exactly the fallback's table and
the attempt trace is tabula then plumber, once each. Moreover whenever
tabula yields a usable table the chain stops there (plumber is never
attempted), and in general each extractor is attempted at most once,
tabula first. -/
theorem C2_extraction_fallback (tabulaRaw : List DF) (fb : List CanonicalRow)
    (hA : ∀ t ∈ tabulaRaw, dfNRows t = 0) (hB : fb ≠ []) :
    extraction_chain tabulaRaw fb = ([Extractor.tabula, Extractor.plumber], fb) ∧
    (∀ (raw : List DF) (fb2 : List CanonicalRow), try_tabula_pdf raw ≠ [] →
      extraction_chain raw fb2 =
        ([Extractor.tabula], detect_and_prepare_df (pickCandidate (try_tabula_pdf raw)))) ∧
    (∀ (raw : List DF) (fb2 : List CanonicalRow),
      (extraction_chain raw fb2).1 = [Extractor.tabula] ∨
      (extraction_chain raw fb2).1 = [Extractor.tabula, Extractor.plumber]) := by
  have hempty : try_tabula_pdf tabulaRaw = [] := by
    rw [try_tabula_pdf, List.filter_eq_nil_iff]
    intro t ht
    simp [hA t ht]
  refine ⟨?_, ?_, ?_⟩
  · rw [extraction_chain, hempty]
    simp [hB]
  · intro raw fb2 h
    rw [extraction_chain]
    simp [h]
  · intro raw fb2
    rw [extraction_chain]
    split
    · exact Or.inl rfl
    · split <;> exact Or.inr rfl

/-- Witness for `C2_extraction_fallback`: tabula returns a single
zero-row frame, the fallback returns a 3-row table. -/
theorem C2_extraction_fallback_witness :
    extraction_chain [[("x", [])]]
        [⟨"B1", 1, 1, 0⟩, ⟨"B2", 2, 1, 0⟩, ⟨"B3", 3, 1, 0⟩] =
      ([Extractor.tabula, Extractor.plumber],
        [⟨"B1", 1, 1, 0⟩, ⟨"B2", 2, 1, 0⟩, ⟨"B3", 3, 1, 0⟩]) ∧
    (∀ (raw : List DF) (fb2 : List CanonicalRow), try_tabula_pdf raw ≠ [] →
      extraction_chain raw fb2 =
        ([Extractor.tabula], detect_and_prepare_df (pickCandidate (try_tabula_pdf raw)))) ∧
    (∀ (raw : List DF) (fb2 : List CanonicalRow),
      (extraction_chain raw fb2).1 = [Extractor.tabula] ∨
      (extraction_chain raw fb2).1 = [Extractor.tabula, Extractor.plumber]) :=
  C2_extraction_fallback [[("x", [])]]
    [⟨"B1", 1, 1, 0⟩, ⟨"B2", 2, 1, 0⟩, ⟨"B3", 3, 1, 0⟩]
    (by intro t ht; simp at ht; simp [ht, dfNRows]) (by simp)

theorem splitOnDot_ne_nil (cs : List Char) : splitOnDot cs ≠ [] := by
  cases cs with
  | nil => simp [splitOnDot]
  | cons c t =>
    rw [splitOnDot]
    split <;> simp

theorem splitOnDot_headD (cs : List Char) :
    (splitOnDot cs).headD [] = cs.takeWhile (fun c => !(c == '.')) := by
  induction cs with
  | nil => simp [splitOnDot]
  | cons c t ih =>
    rw [splitOnDot, List.takeWhile_cons]
    by_cases hc : c = '.'
    · simp [hc]
    · simp only [hc, beq_iff_eq, if_false, Bool.not_false, if_true,
        List.headD_cons, ih]
      simp [hc]

theorem splitOnDot_flatten (cs : List Char) :
    (splitOnDot cs).flatten = cs.filter (fun c => !(c == '.')) := by
  induction cs with
  | nil => simp [splitOnDot]
  | cons c t ih =>
    rw [splitOnDot, List.filter_cons]
    by_cases hc : c = '.'
    · simp [hc, ih]
    · obtain ⟨h, r, hr⟩ : ∃ h r, splitOnDot t = h :: r :=
        List.exists_cons_of_ne_nil (splitOnDot_ne_nil t)
      rw [if_neg (by simp [hc])]
      rw [hr, List.headD_cons, List.tail_cons]
      have hflat : ((c :: h) :: r).flatten = c :: (splitOnDot t).flatten := by
        rw [hr]
        simp
      rw [hflat, ih]
      simp [hc]

theorem splitOnDot_tail_flatten (cs : List Char) :
    ((splitOnDot cs).tail).flatten =
      ((cs.dropWhile (fun c => !(c == '.'))).tail).filter (fun c => !(c == '.')) := by
  induction cs with
  | nil => simp [splitOnDot]
  | cons c t ih =>
    rw [splitOnDot, List.dropWhile_cons]
    by_cases hc : c = '.'
    · simp [hc, splitOnDot_flatten]
    · have hne := splitOnDot_ne_nil t
      obtain ⟨h, r, hr⟩ : ∃ h r, splitOnDot t = h :: r :=
        List.exists_cons_of_ne_nil hne
      simp only [hc, beq_iff_eq, if_false]
      simp only [hr, List.tail_cons] at ih ⊢
      simpa [hc] using ih

set_option maxRecDepth 8000 in
/-- Claim C3, confirmed. When the stripped cell keeps more than one
decimal point, `clean_number_raw` keeps the characters before the first
point, a single point, and then every remaining non-point character (all
digits after the first point, for digit/point content) concatenated; the
output contains exactly one point, and on `"1.234.56"` the cleaner's
numeric result is `1.23456` (`123456/100000`), not `1234.56`. -/
theorem C3_first_dot_policy (s : String)
    (h : 1 < (stripNonNumeric s).count '.') :
    (clean_number_raw (some s)).toList =
      (stripNonNumeric s).takeWhile (fun c => !(c == '.')) ++
        '.' :: ((stripNonNumeric s).dropWhile (fun c => !(c == '.'))).tail.filter
          (fun c => !(c == '.')) ∧
    (clean_number_raw (some s)).toList.count '.' = 1 ∧
    to_float_safe (some "1.234.56") = some (123456 / 100000) := by
  have hclean : (clean_number_raw (some s)).toList =
      (stripNonNumeric s).takeWhile (fun c => !(c == '.')) ++
        '.' :: ((stripNonNumeric s).dropWhile (fun c => !(c == '.'))).tail.filter
          (fun c => !(c == '.')) := by
    rw [clean_number_raw]
    simp only [h, if_true]
    show ((splitOnDot (stripNonNumeric s)).headD [] ++
        '.' :: ((splitOnDot (stripNonNumeric s)).tail).flatten).asString.toList = _
    rw [show ∀ l : List Char, l.asString.toList = l from fun _ => rfl]
    rw [splitOnDot_headD, splitOnDot_tail_flatten]
  have hparse : to_float_safe (some "1.234.56") = some (123456 / 100000) := by
    have h1 : to_float_safe (some "1.234.56") =
        some ((1 : ℚ) * (((1 : ℕ) : ℚ) + ((23456 : ℕ) : ℚ) / (10 : ℚ) ^ 5)) := rfl
    rw [h1]
    push_cast
    norm_num
  refine ⟨hclean, ?_, hparse⟩
  rw [hclean, List.count_append]
  have h1 : ((stripNonNumeric s).takeWhile (fun c => !(c == '.'))).count '.' = 0 := by
    rw [List.count_eq_zero]
    intro hmem
    have := List.mem_takeWhile_imp hmem
    simp at this
  have h2 : (((stripNonNumeric s).dropWhile (fun c => !(c == '.'))).tail.filter
      (fun c => !(c == '.'))).count '.' = 0 := by
    rw [List.count_eq_zero]
    intro hmem
    have := (List.mem_filter.mp hmem).2
    simp at this
  rw [h1, List.count_cons_self, h2]

set_option maxRecDepth 8000 in
/-- Witness for `C3_first_dot_policy` at the cell `"1.234.56"`. -/
theorem C3_first_dot_policy_witness :
    (clean_number_raw (some "1.234.56")).toList =
      (stripNonNumeric "1.234.56").takeWhile (fun c => !(c == '.')) ++
        '.' :: ((stripNonNumeric "1.234.56").dropWhile (fun c => !(c == '.'))).tail.filter
          (fun c => !(c == '.')) ∧
    (clean_number_raw (some "1.234.56")).toList.count '.' = 1 ∧
    to_float_safe (some "1.234.56") = some (123456 / 100000) :=
  C3_first_dot_policy "1.234.56" (by decide)

set_option maxRecDepth 8000 in
/-- Claim C4, corrected. The claim holds for `app.py` (line 216 keeps
exactly the rows with non-empty stripped `Item Name`), but the second
normalizer cited, `detect_and_prepare_df` of `invoice_analyzer_ready.py`,
only strips the item name and keeps rows whose stripped name is empty:
on a one-row table whose item cell is `"   "` the output still has one
row, with item name `""`. -/
theorem C4_counterexample :
    (detect_and_prepare_df
        [("Item Name", ["   "]), ("Original Price", ["5"]), ("Paid Qty", ["2"])]).map
      (fun r => r.itemName) = [""] := rfl

set_option maxRecDepth 8000 in
/-- Claim C4, amended: in `app.py` a row survives the empty-item filter
iff it was in the working table and its stripped `Item Name` is
non-empty; `detect_and_prepare_df` in `invoice_analyzer_ready.py`, by
contrast, can output a row whose (stripped) item name is empty. -/
theorem C4_empty_item_rows (work : List AppRow) (r : AppRow) :
    (r ∈ appRemoveEmptyItems work ↔ r ∈ work ∧ pyStrip r.itemName ≠ "") ∧
    ∃ df : DF, ∃ row ∈ detect_and_prepare_df df, row.itemName = "" := by
  constructor
  · rw [appRemoveEmptyItems, List.mem_filter]
    simp
  · refine ⟨[("Item Name", ["   "]), ("Original Price", ["5"]), ("Paid Qty", ["2"])],
      ⟨"", (1 : ℚ) * ((5 : ℕ) : ℚ), (1 : ℚ) * ((2 : ℕ) : ℚ), 0⟩, ?_, rfl⟩
    have hd : detect_and_prepare_df
        [("Item Name", ["   "]), ("Original Price", ["5"]), ("Paid Qty", ["2"])] =
        [⟨"", (1 : ℚ) * ((5 : ℕ) : ℚ), (1 : ℚ) * ((2 : ℕ) : ℚ), 0⟩] := rfl
    rw [hd]
    exact List.mem_singleton_self _

set_option maxRecDepth 8000 in
/-- Claim C5, corrected. The fast path does not match the claimed
keyword sets: a column named `"description"` maps to no role (the code
checks `item`/`name`/`make`, not `description`), and `"amount"` maps to
no role (the code checks `price`/`unit`/`rate`, not `amount`). -/
theorem C5_counterexample :
    kwRole "description" = none ∧ kwRole "amount" = none := by
  decide

/-- Claim C5, amended: the header-keyword fast path assigns, in
first-match-wins order: a name containing `item`, `name` or `make` →
ItemName; else containing `price`, `unit` or `rate` → Price; else
containing `free` → FreeQty; else containing `qty` → PaidQty
(`description` and `amount` are not keywords). -/
theorem C5_keyword_fast_path (c : String) :
    (kwRole c = some "Item Name" ↔
      (strContains (lowerStr c) "item" || strContains (lowerStr c) "name" ||
        strContains (lowerStr c) "make") = true) ∧
    (kwRole c = some "Original Price" ↔
      (strContains (lowerStr c) "item" || strContains (lowerStr c) "name" ||
        strContains (lowerStr c) "make") = false ∧
      (strContains (lowerStr c) "price" || strContains (lowerStr c) "unit" ||
        strContains (lowerStr c) "rate") = true) ∧
    (kwRole c = some "Free Qty" ↔
      (strContains (lowerStr c) "item" || strContains (lowerStr c) "name" ||
        strContains (lowerStr c) "make") = false ∧
      (strContains (lowerStr c) "price" || strContains (lowerStr c) "unit" ||
        strContains (lowerStr c) "rate") = false ∧
      strContains (lowerStr c) "free" = true) ∧
    (kwRole c = some "Paid Qty" ↔
      (strContains (lowerStr c) "item" || strContains (lowerStr c) "name" ||
        strContains (lowerStr c) "make") = false ∧
      (strContains (lowerStr c) "price" || strContains (lowerStr c) "unit" ||
        strContains (lowerStr c) "rate") = false ∧
      strContains (lowerStr c) "free" = false ∧
      strContains (lowerStr c) "qty" = true) := by
  unfold kwRole
  dsimp only
  generalize strContains (lowerStr c) "item" = b1
  generalize strContains (lowerStr c) "name" = b2
  generalize strContains (lowerStr c) "make" = b3
  generalize strContains (lowerStr c) "price" = b4
  generalize strContains (lowerStr c) "unit" = b5
  generalize strContains (lowerStr c) "rate" = b6
  generalize strContains (lowerStr c) "free" = b7
  generalize strContains (lowerStr c) "qty" = b8
  cases b1 <;> cases b2 <;> cases b3 <;> cases b4 <;> cases b5 <;> cases b6 <;>
    cases b7 <;> cases b8 <;> decide

/-- Claim C6, confirmed. A cell whose cleaned string is empty or
unparsable yields `Absent` (`none`, i.e. NaN) rather than an error —
the embedding is a total function — and the pipeline's
`fillna(0)`-style coercion maps that `Absent` to 0. -/
theorem C6_parse_failure_silent (x : Option String) :
    (clean_number_raw x = "" → to_float_safe x = none) ∧
    (parseDecimal? (clean_number_raw x) = none → to_float_safe x = none) ∧
    (to_float_safe x = none → fillna0 (to_float_safe x) = 0) := by
  refine ⟨fun h => ?_, fun h => ?_, fun h => ?_⟩
  · rw [to_float_safe, h]
    rfl
  · rw [to_float_safe]
    split
    · rfl
    · exact h
  · rw [h]
    rfl

/-- Witness for `C6_parse_failure_silent` at the cell `"abc"`, whose
cleaned string is empty. -/
theorem C6_parse_failure_silent_witness :
    to_float_safe (some "abc") = none ∧ fillna0 (to_float_safe (some "abc")) = 0 :=
  ⟨(C6_parse_failure_silent (some "abc")).1 rfl,
    (C6_parse_failure_silent (some "abc")).2.2
      ((C6_parse_failure_silent (some "abc")).1 rfl)⟩

/-- Claim C8, corrected. The discounted unit price is indeed
`round(original_price × (100 − discount)/100, 2)`, but at discount 0 it
equals `round(original_price, 2)`, which differs from `original_price`
for prices with more than two decimal places: for `original_price = 1/8`
(i.e. 0.125) the code yields `3/25` (i.e. 0.12, ties-to-even). -/
theorem C8_counterexample :
    (enrich ⟨"A", 1/8, 1, 0⟩ 0).discountedUnitPrice = 3/25 ∧
    ((3 : ℚ)/25 ≠ 1/8) := by
  with_unfolding_all decide

/-- Claim C8, amended: `discounted_unit_price` equals
`round(original_price × (100 − discount_percent)/100, 2)`; at
`discount_percent = 0` it equals `round(original_price, 2)`, which
coincides with `original_price` exactly when `100 × original_price` is
an integer (price has at most two decimal places). -/
theorem C8_discounted_unit_price (r : CanonicalRow) (d : ℚ) :
    (enrich r d).discountedUnitPrice = round2 (r.originalPrice * ((100 - d) / 100)) ∧
    (d = 0 → (enrich r d).discountedUnitPrice = round2 r.originalPrice) ∧
    (∀ n : ℤ, d = 0 → r.originalPrice * 100 = (n : ℚ) →
      (enrich r d).discountedUnitPrice = r.originalPrice) := by
  refine ⟨rfl, fun hd => ?_, fun n hd hp => ?_⟩
  · show round2 (r.originalPrice * discount_multiplier d) = _
    rw [hd]
    norm_num [discount_multiplier]
  · show round2 (r.originalPrice * discount_multiplier d) = _
    rw [hd]
    have : r.originalPrice * discount_multiplier 0 = r.originalPrice := by
      norm_num [discount_multiplier]
    rw [this]
    exact round2_eq_self _ n hp

/-- Witness for `C8_discounted_unit_price` at the row
`{item "A", price 10, paid 5, free 1}`, discount 0, `n = 1000`. -/
theorem C8_discounted_unit_price_witness :
    (enrich ⟨"A", 10, 5, 1⟩ 0).discountedUnitPrice =
      round2 ((⟨"A", 10, 5, 1⟩ : CanonicalRow).originalPrice * ((100 - 0) / 100)) ∧
    (enrich ⟨"A", 10, 5, 1⟩ 0).discountedUnitPrice =
      round2 (⟨"A", 10, 5, 1⟩ : CanonicalRow).originalPrice ∧
    (enrich ⟨"A", 10, 5, 1⟩ 0).discountedUnitPrice =
      (⟨"A", 10, 5, 1⟩ : CanonicalRow).originalPrice :=
  ⟨(C8_discounted_unit_price ⟨"A", 10, 5, 1⟩ 0).1,
    (C8_discounted_unit_price ⟨"A", 10, 5, 1⟩ 0).2.1 rfl,
    (C8_discounted_unit_price ⟨"A", 10, 5, 1⟩ 0).2.2 1000 rfl (by norm_num)⟩

theorem propNumeric_le_one (cells : List String) : propNumeric cells ≤ 1 := by
  unfold propNumeric
  dsimp only
  split
  · rename_i h
    rw [div_le_one (by exact_mod_cast h)]
    exact_mod_cast List.countP_le_length _
  · norm_num

theorem avgLen_nonneg (cells : List String) : 0 ≤ avgLen cells := by
  unfold avgLen
  apply div_nonneg _ (Nat.cast_nonneg _)
  apply List.sum_nonneg
  intro x hx
  obtain ⟨s, _, rfl⟩ := List.mem_map.mp hx
  positivity

theorem itemScore_nonneg (cells : List String) : 0 ≤ itemScore cells := by
  unfold itemScore
  have h1 := propNumeric_le_one cells
  have h2 := avgLen_nonneg cells
  nlinarith

theorem itemColStep_spec (acc : Option String × ℚ) (c : String × List String) :
    acc.2 ≤ (itemColStep acc c).2 ∧ itemScore c.2 ≤ (itemColStep acc c).2 ∧
      (itemColStep acc c = acc ∨ itemColStep acc c = (some c.1, itemScore c.2)) := by
  unfold itemColStep
  dsimp only
  split
  · rename_i h
    exact ⟨le_of_lt h, le_refl _, Or.inr rfl⟩
  · rename_i h
    exact ⟨le_refl _, le_of_not_lt h, Or.inl rfl⟩

theorem choose_item_column_aux (l : List (String × List String))
    (acc : Option String × ℚ) :
    acc.2 ≤ (l.foldl itemColStep acc).2 ∧
    (∀ col ∈ l, itemScore col.2 ≤ (l.foldl itemColStep acc).2) ∧
    (l.foldl itemColStep acc = acc ∨
      ∃ col ∈ l, l.foldl itemColStep acc = (some col.1, itemScore col.2)) := by
  induction l generalizing acc with
  | nil => simp
  | cons c t ih =>
    rw [List.foldl_cons]
    obtain ⟨ih1, ih2, ih3⟩ := ih (itemColStep acc c)
    obtain ⟨hs1, hs2, hs3⟩ := itemColStep_spec acc c
    refine ⟨le_trans hs1 ih1, ?_, ?_⟩
    · intro col hcol
      rcases List.mem_cons.mp hcol with h | h
      · subst h
        exact le_trans hs2 ih1
      · exact ih2 col h
    · rcases ih3 with h | ⟨col, hcol, heq⟩
      · rcases hs3 with h' | h'
        · exact Or.inl (h.trans h')
        · exact Or.inr ⟨c, List.mem_cons_self c t, h.trans h'⟩
      · exact Or.inr ⟨col, List.mem_cons_of_mem c hcol, heq⟩

/-- Claim C9, confirmed. `choose_item_column` scores every column as
`0.6 × (1 − numeric_proportion) + 0.4 × (avg_text_length / 100)` and
returns a column of maximal score (the first such, since the update is
strict). The columns are assumed nonempty (for an empty column pandas
produces a NaN average length and never selects it; in the rational
model this boundary case is excluded by hypothesis). -/
theorem C9_item_column_argmax (df : List (String × List String))
    (hne : df ≠ []) (_hcols : ∀ col ∈ df, col.2 ≠ []) :
    ∃ col ∈ df, choose_item_column df = (some col.1, itemScore col.2) ∧
      ∀ c ∈ df, itemScore c.2 ≤ itemScore col.2 := by
  obtain ⟨h1, h2, h3⟩ := choose_item_column_aux df (none, -999)
  rcases h3 with h3 | ⟨col, hcol, heq⟩
  · exfalso
    obtain ⟨c0, hc0⟩ := List.exists_mem_of_ne_nil df hne
    have hle := h2 c0 hc0
    rw [h3] at hle
    have hnn := itemScore_nonneg c0.2
    simp at hle
    linarith
  · refine ⟨col, hcol, ?_, fun c hc => ?_⟩
    · rw [choose_item_column, heq]
    · have hle := h2 c hc
      rw [heq] at hle
      exact hle

/-- Witness for `C9_item_column_argmax` on the two-column table
`[("a", ["hello"]), ("b", ["5"])]` (the text column wins). -/
theorem C9_item_column_argmax_witness :
    ∃ col ∈ [("a", ["hello"]), ("b", ["5"])],
      choose_item_column [("a", ["hello"]), ("b", ["5"])] =
        (some col.1, itemScore col.2) ∧
      ∀ c ∈ [("a", ["hello"]), ("b", ["5"])], itemScore c.2 ≤ itemScore col.2 :=
  C9_item_column_argmax [("a", ["hello"]), ("b", ["5"])] (by simp) (by decide)

theorem ratios_qty_present (rows : List AppRow) (h : ratios rows ≠ []) :
    0 < rows.countP (fun r => (qtyNum r).isSome) := by
  obtain ⟨x, hx⟩ := List.exists_mem_of_ne_nil _ h
  rw [ratios, List.mem_filterMap] at hx
  obtain ⟨r, hr, heq⟩ := hx
  rw [List.countP_pos_iff]
  refine ⟨r, hr, ?_⟩
  cases hq : qtyNum r with
  | none =>
    rw [hq] at heq
    cases hp : priceNum r <;> rw [hp] at heq <;> simp at heq
  | some q => simp

/-- Claim C10, confirmed. `use_division` is set exactly when some
price/quantity ratio exists and the ratios' relative standard deviation
test (`std/(median + 1e-9) < 0.6`, the code's definition of "relative
standard deviation") passes; with it set, a row with parsed price and a
present nonzero quantity reports `price / qty`, and otherwise — division
off, quantity missing, or quantity zero — the parsed price is reported
unchanged. -/
theorem C10_price_division_heuristic (rows : List AppRow) (p : ℚ) (q : ℤ) :
    (use_division rows = true ↔
      ratios rows ≠ [] ∧ relStdBelow (ratios rows) = true) ∧
    (use_division rows = true → q ≠ 0 →
      compute_unit (use_division rows) (some p) (some q) = some (p / (q : ℚ))) ∧
    (use_division rows = false →
      ∀ qo : Option ℤ, compute_unit (use_division rows) (some p) qo = some p) ∧
    (compute_unit (use_division rows) (some p) (some 0) = some p ∧
      compute_unit (use_division rows) (some p) none = some p) := by
  have hiff : use_division rows = true ↔
      ratios rows ≠ [] ∧ relStdBelow (ratios rows) = true := by
    constructor
    · intro h
      rw [use_division] at h
      dsimp only at h
      split at h
      · split at h
        · rename_i hlen
          exact ⟨List.ne_nil_of_length_pos (by omega), h⟩
        · exact absurd h (by simp)
      · exact absurd h (by simp)
    · rintro ⟨hne, hstd⟩
      rw [use_division]
      dsimp only
      rw [if_pos (ratios_qty_present rows hne),
        if_pos (Nat.one_le_iff_ne_zero.mpr (by simpa using hne))]
      exact hstd
  refine ⟨hiff, fun hud hq => ?_, fun hud qo => ?_, ?_, ?_⟩
  · rw [hud]
    simp [compute_unit, hq]
  · cases qo with
    | none => simp [compute_unit]
    | some q2 =>
      rw [hud]
      simp [compute_unit]
  · simp [compute_unit]
  · simp [compute_unit]

/-- Witness for `C10_price_division_heuristic` on two rows with
identical price/qty ratios (division fires) at price 10, quantity 2. -/
theorem C10_price_division_heuristic_witness :
    use_division [⟨"a", some "10", some "2"⟩, ⟨"b", some "20", some "4"⟩] = true ∧
    compute_unit
        (use_division [⟨"a", some "10", some "2"⟩, ⟨"b", some "20", some "4"⟩])
        (some (10 : ℚ)) (some (2 : ℤ)) = some ((10 : ℚ) / ((2 : ℤ) : ℚ)) := by
  have h := C10_price_division_heuristic
    [⟨"a", some "10", some "2"⟩, ⟨"b", some "20", some "4"⟩] 10 2
  have hud : use_division [⟨"a", some "10", some "2"⟩, ⟨"b", some "20", some "4"⟩]
      = true := by
    with_unfolding_all decide
  exact ⟨hud, h.2.1 hud (by decide)⟩

end InvoiceAnalyzer
